import Mathlib

/-!
# Verification of the lab0 C record-export tool

Shallow embedding of `src/lab0/c_src/main.c`: a generator that fills an
array of tagged-union records (`ExportData`) and a writer that dumps the
array as fixed-size binary blocks.

Modelling choices:
* C `float` values are modelled as `Rat`: the program only copies the ten
  literal table values `1.0 … 10.0`, it never computes with them.
* C `int` / `long` are modelled as `Int` (all values in the program are
  tiny: discriminants 1..3, counters 0..9 / 0..6, epoch seconds).
* The wall clock `time(NULL)` is modelled as an oracle `clock : Nat → Int`
  held in the generator state together with a counter of calls made so far;
  the k-th call returns `clock k`.
* The two C `static` counters become explicit fields of `GenState`.
* Each char array of 21 bytes becomes a `List Nat` of length 21; a C string
  literal shorter than the array zero-fills the rest (C initializer rule),
  which `cString21` reproduces.
* The on-disk layout (x86-64 SysV: 4-byte int, 4-byte float, 8-byte long,
  union padded to the widest member, 64-byte `ExportData`) is modelled one
  byte per `Cell`; the cells of a multi-byte field all carry the field's
  value, and padding / bytes not covered by the active union member are
  `Cell.undef`.
-/

/-- `VALUE = 1` from `export_type_e`. -/
def VALUE : Int := 1

/-- `M_VALUE = 2` from `export_type_e`. -/
def M_VALUE : Int := 2

/-- `MESSAGE = 3` from `export_type_e`. -/
def MESSAGE : Int := 3

/-- `#define EXPORT_STRINGS_LEN (7)` -/
def EXPORT_STRINGS_LEN : Nat := 7

/-- `#define FLOAT_ARRAY_LEN (10)` -/
def FLOAT_ARRAY_LEN : Nat := 10

/-- A C string literal stored in a `char [21]`: its bytes followed by
zero-fill up to 21 bytes (C initializer semantics). -/
def cString21 (s : String) : List Nat :=
  (s.data.map Char.toNat) ++ List.replicate (21 - s.length) 0

/-- `export_strings`: the seven 21-byte rows of the string table. -/
def export_strings : List (List Nat) :=
  [cString21 "Bella",
   cString21 "Test",
   cString21 "Pippo",
   cString21 "Pluto",
   cString21 "42",
   cString21 "AnswerToTheUniverse",
   cString21 "E tutto il resto..."]

/-- `float_array`: the ten float-table values `1.0 … 10.0`. -/
def float_array : List Rat :=
  [1, 2, 3, 4, 5, 6, 7, 8, 9, 10]

/-- `ValueStruct`: `int type; float val; long timestamp;` -/
structure ValueStruct where
  type : Int
  val : Rat
  timestamp : Int
deriving DecidableEq

/-- `MValueStruct`: `int type; float val[10]; long timestamp;` -/
structure MValueStruct where
  type : Int
  val : List Rat
  timestamp : Int
deriving DecidableEq

/-- `MessageStruct`: `int type; char message[21];` (no timestamp field). -/
structure MessageStruct where
  type : Int
  message : List Nat
deriving DecidableEq

/-- The anonymous union inside `ExportData`: at any time exactly one member
is the active one, so it is modelled as a sum. -/
inductive ExportPayload where
  | val (v : ValueStruct)
  | mvals (v : MValueStruct)
  | messages (m : MessageStruct)
deriving DecidableEq

/-- `ExportData`: `int type;` followed by the union. -/
structure ExportData where
  type : Int
  payload : ExportPayload
deriving DecidableEq

/-- The mutable process state of the generator: the two C `static`
counters, plus the wall-clock oracle and the number of `time(NULL)` calls
made so far. -/
structure GenState where
  val_counter : Nat
  string_counter : Nat
  clock : Nat → Int
  timeCalls : Nat

/-- State at program start: both static counters are zero-initialized and
no `time` call has happened yet. -/
def initState (c : Nat → Int) : GenState :=
  { val_counter := 0, string_counter := 0, clock := c, timeCalls := 0 }

/-- `get_value_struct`: builds a `ValueStruct` from the current float-table
slot and the current time, then advances `val_counter` modulo 10. -/
def get_value_struct (s : GenState) : ValueStruct × GenState :=
  ({ type := VALUE
     val := float_array.getD s.val_counter 0
     timestamp := s.clock s.timeCalls },
   { s with
     val_counter := (s.val_counter + 1) % FLOAT_ARRAY_LEN
     timeCalls := s.timeCalls + 1 })

/-- `get_m_value_struct`: builds an `MValueStruct` holding a `memcpy` of the
whole float table and the current time; no counter is touched. -/
def get_m_value_struct (s : GenState) : MValueStruct × GenState :=
  ({ type := M_VALUE
     val := float_array
     timestamp := s.clock s.timeCalls },
   { s with timeCalls := s.timeCalls + 1 })

/-- `get_message_struct`: builds a `MessageStruct` holding a `memcpy` of the
full 21-byte row at the current string-table slot, then advances
`string_counter` modulo 7. It performs no `time(NULL)` call and the struct
has no timestamp field. -/
def get_message_struct (s : GenState) : MessageStruct × GenState :=
  ({ type := MESSAGE
     message := export_strings.getD s.string_counter (List.replicate 21 0) },
   { s with string_counter := (s.string_counter + 1) % EXPORT_STRINGS_LEN })

/-- One iteration of the loop body of `fill_export_data`: the `switch` on
`i % 3`. -/
def fillStep (i : Nat) (s : GenState) : ExportData × GenState :=
  if i % 3 = 0 then
    let r := get_value_struct s
    ({ type := VALUE, payload := ExportPayload.val r.1 }, r.2)
  else if i % 3 = 1 then
    let r := get_m_value_struct s
    ({ type := M_VALUE, payload := ExportPayload.mvals r.1 }, r.2)
  else
    let r := get_message_struct s
    ({ type := MESSAGE, payload := ExportPayload.messages r.1 }, r.2)

/-- The loop of `fill_export_data`, started at index `i` with `n` iterations
left: returns the records written to `data[i .. i+n)` and the final state. -/
def fillFrom (i n : Nat) (s : GenState) : List ExportData × GenState :=
  match n with
  | 0 => ([], s)
  | Nat.succ m =>
    let step := fillStep i s
    let rest := fillFrom (i + 1) m step.2
    (step.1 :: rest.1, rest.2)

/-- `fill_export_data(data, len)` run from state `s`. -/
def fill_export_data (len : Nat) (s : GenState) : List ExportData × GenState :=
  fillFrom 0 len s

/-- The record sequence a run with count `N` and clock `c` produces. -/
def records (c : Nat → Int) (N : Nat) : List ExportData :=
  (fill_export_data N (initState c)).1

/-- The generator state just before loop index `i` is processed. -/
def stateAt (c : Nat → Int) : Nat → GenState
  | 0 => initState c
  | Nat.succ i => (fillStep i (stateAt c i)).2

/-! ## The binary writer

`export(data, data_len, fp)` is one `fwrite(data, sizeof(ExportData),
data_len, fp)`: the raw in-memory bytes of the array, back to back.  On the
target ABI (x86-64 SysV) `sizeof(ExportData) = 64`: the 4-byte `int type`,
4 bytes of padding (the union is 8-aligned because of `long`), then the
56-byte union (`MValueStruct`, its widest member: 4 + 40 + 4 + 56-aligned
8-byte `long`).  One `Cell` models one byte; the cells of a multi-byte
field each carry the whole field value, and padding bytes or bytes beyond
the active union member are `Cell.undef` (their content is unspecified in
the C object).
-/

/-- One byte of the output stream. -/
inductive Cell where
  | intB (v : Int)
  | floatB (v : Rat)
  | longB (v : Int)
  | charB (c : Nat)
  | undef
deriving DecidableEq

/-- `sizeof(ExportData)` on the target ABI. -/
def sizeofExportData : Nat := 64

/-- The 4 bytes of an `int`. -/
def encInt (v : Int) : List Cell := List.replicate 4 (Cell.intB v)

/-- The 4 bytes of a `float`. -/
def encFloat (v : Rat) : List Cell := List.replicate 4 (Cell.floatB v)

/-- The 8 bytes of a `long`. -/
def encLong (v : Int) : List Cell := List.replicate 8 (Cell.longB v)

/-- A region of exactly `n` bytes: the (at most `n`) bytes written into it,
then unspecified bytes up to `n`. -/
def fitArray (n : Nat) (l : List Cell) : List Cell :=
  l.take n ++ List.replicate (n - l.length) Cell.undef

/-- Bytes of a `ValueStruct`: `type` at 0, `val` at 4, `timestamp` at 8
(16 bytes, no internal padding). -/
def serializeValue (v : ValueStruct) : List Cell :=
  encInt v.type ++ encFloat v.val ++ encLong v.timestamp

/-- Bytes of an `MValueStruct`: `type` at 0, `val[10]` at 4, 4 padding
bytes, `timestamp` at 48 (56 bytes). -/
def serializeMValue (v : MValueStruct) : List Cell :=
  encInt v.type ++ fitArray 40 ((v.val.map encFloat).flatten) ++
    List.replicate 4 Cell.undef ++ encLong v.timestamp

/-- Bytes of a `MessageStruct`: `type` at 0, the 21 `message` bytes at 4
(25 bytes). -/
def serializeMessage (m : MessageStruct) : List Cell :=
  encInt m.type ++ fitArray 21 (m.message.map Cell.charB)

/-- Bytes of the active union member. -/
def payloadCells : ExportPayload → List Cell
  | ExportPayload.val v => serializeValue v
  | ExportPayload.mvals v => serializeMValue v
  | ExportPayload.messages m => serializeMessage m

/-- The 64-byte block of one `ExportData`: outer `type` at 0, 4 padding
bytes, the 56-byte union region at 8. -/
def serializeRecord (r : ExportData) : List Cell :=
  encInt r.type ++ List.replicate 4 Cell.undef ++ fitArray 56 (payloadCells r.payload)

/-- `export(data, data_len, fp)`: the blocks of all records, back to back,
in order. -/
def export_records (data : List ExportData) : List Cell :=
  (data.map serializeRecord).flatten

/-! ## A reader for the documented fixed layout

The spec documents the stream as `N` back-to-back 64-byte blocks, each
beginning with the discriminant, the meaningful payload fields at fixed
offsets.  `deserialize` is that documented reader: it recovers the record
count from the stream length and, per block, the discriminant and the
payload values (timestamps are not part of the reconstruction the
round-trip claim makes). -/

/-- What a reader recovers from one block: the discriminant and the
variant's payload values. -/
inductive ParsedPayload where
  | scalar (val : Rat)
  | vector (vals : List Rat)
  | message (msg : List Nat)
deriving DecidableEq

/-- A parsed record: discriminant plus payload values. -/
structure ParsedRecord where
  type : Int
  payload : ParsedPayload
deriving DecidableEq

/-- Read the `int` whose first byte sits at offset `off`. -/
def readIntAt (block : List Cell) (off : Nat) : Option Int :=
  match block[off]? with
  | some (Cell.intB v) => some v
  | _ => none

/-- Read the `float` whose first byte sits at offset `off`. -/
def readFloatAt (block : List Cell) (off : Nat) : Option Rat :=
  match block[off]? with
  | some (Cell.floatB v) => some v
  | _ => none

/-- Read the `char` at offset `off`. -/
def readCharAt (block : List Cell) (off : Nat) : Option Nat :=
  match block[off]? with
  | some (Cell.charB c) => some c
  | _ => none

/-- Read `n` consecutive 4-byte floats starting at offset `off`. -/
def readFloats (block : List Cell) : Nat → Nat → Option (List Rat)
  | _, 0 => some []
  | off, Nat.succ n =>
    match readFloatAt block off, readFloats block (off + 4) n with
    | some v, some vs => some (v :: vs)
    | _, _ => none

/-- Read `n` consecutive chars starting at offset `off`. -/
def readChars (block : List Cell) : Nat → Nat → Option (List Nat)
  | _, 0 => some []
  | off, Nat.succ n =>
    match readCharAt block off, readChars block (off + 1) n with
    | some c, some cs => some (c :: cs)
    | _, _ => none

/-- Parse one 64-byte block at the documented offsets: discriminant at 0;
for `1` (Scalar) the float at 12; for `2` (Vector) the ten floats at
12, 16, …, 48; for `3` (Message) the 21 chars at 12. -/
def parseBlock (block : List Cell) : Option ParsedRecord :=
  match readIntAt block 0 with
  | none => none
  | some t =>
    if t = VALUE then
      match readFloatAt block 12 with
      | some v => some { type := t, payload := ParsedPayload.scalar v }
      | none => none
    else if t = M_VALUE then
      match readFloats block 12 10 with
      | some vs => some { type := t, payload := ParsedPayload.vector vs }
      | none => none
    else if t = MESSAGE then
      match readChars block 12 21 with
      | some cs => some { type := t, payload := ParsedPayload.message cs }
      | none => none
    else none

/-- Parse `n` back-to-back blocks. -/
def deserializeBlocks : Nat → List Cell → Option (List ParsedRecord)
  | 0, _ => some []
  | Nat.succ n, stream =>
    match parseBlock (stream.take 64), deserializeBlocks n (stream.drop 64) with
    | some r, some rs => some (r :: rs)
    | _, _ => none

/-- Parse a whole stream: it must be a whole number of 64-byte blocks, and
the record count is recovered as `length / 64`. -/
def deserialize (stream : List Cell) : Option (List ParsedRecord) :=
  if stream.length % 64 = 0 then deserializeBlocks (stream.length / 64) stream
  else none

/-- The discriminant-and-payload view of a generated record: what the
round-trip claim says a reader reconstructs (timestamps excluded). -/
def viewRecord (r : ExportData) : ParsedRecord :=
  { type := r.type
    payload :=
      match r.payload with
      | ExportPayload.val v => ParsedPayload.scalar v.val
      | ExportPayload.mvals v => ParsedPayload.vector v.val
      | ExportPayload.messages m => ParsedPayload.message m.message }

/-- The inner `type` field stored at the start of the active union member. -/
def innerType : ExportPayload → Int
  | ExportPayload.val v => v.type
  | ExportPayload.mvals v => v.type
  | ExportPayload.messages m => m.type

/-- The discriminant value belonging to each union variant. -/
def variantTag : ExportPayload → Int
  | ExportPayload.val _ => VALUE
  | ExportPayload.mvals _ => M_VALUE
  | ExportPayload.messages _ => MESSAGE

/-- Structural facts every record built by `fillStep` enjoys; what the
block parser needs about a record. -/
def wellFormed (r : ExportData) : Prop :=
  match r.payload with
  | ExportPayload.val _ => r.type = VALUE
  | ExportPayload.mvals v => r.type = M_VALUE ∧ v.val.length = 10
  | ExportPayload.messages m => r.type = MESSAGE ∧ m.message.length = 21

theorem fillFrom_length (n : Nat) : ∀ (i : Nat) (s : GenState),
    (fillFrom i n s).1.length = n := by
  induction n with
  | zero => intro i s; rfl
  | succ m ih => intro i s; simp [fillFrom, ih]

theorem records_length (c : Nat → Int) (N : Nat) :
    (records c N).length = N := by
  simp [records, fill_export_data, fillFrom_length]

theorem fillFrom_stateAt_get (c : Nat → Int) :
    ∀ (n i j : Nat), j < n →
      (fillFrom i n (stateAt c i)).1.get? j = some (fillStep (i + j) (stateAt c (i + j))).1 := by
  intro n
  induction n with
  | zero => intro i j h; omega
  | succ m ih =>
    intro i j h
    match j with
    | 0 => simp [fillFrom]
    | Nat.succ k =>
      have hrec : (fillStep i (stateAt c i)).2 = stateAt c (i + 1) := by
        simp [stateAt]
      have := ih (i + 1) k (by omega)
      have hik : i + 1 + k = i + (k + 1) := by omega
      simp only [fillFrom, List.get?_cons_succ, hrec]
      rw [this, hik]

theorem records_get (c : Nat → Int) (N i : Nat) (h : i < N) :
    (records c N).get? i = some (fillStep i (stateAt c i)).1 := by
  have h0 : stateAt c 0 = initState c := rfl
  have := fillFrom_stateAt_get c N 0 i h
  rw [h0] at this
  simpa [records, fill_export_data] using this

/-! ## State evolution of the generator -/

theorem fillStep_clock (i : Nat) (s : GenState) :
    (fillStep i s).2.clock = s.clock := by
  have h : i % 3 = 0 ∨ i % 3 = 1 ∨ i % 3 = 2 := by omega
  rcases h with h | h | h <;>
    simp [fillStep, h, get_value_struct, get_m_value_struct, get_message_struct]

theorem fillStep_val_counter (i : Nat) (s : GenState) :
    (fillStep i s).2.val_counter =
      if i % 3 = 0 then (s.val_counter + 1) % FLOAT_ARRAY_LEN else s.val_counter := by
  have h : i % 3 = 0 ∨ i % 3 = 1 ∨ i % 3 = 2 := by omega
  rcases h with h | h | h <;>
    simp [fillStep, h, get_value_struct, get_m_value_struct, get_message_struct]

theorem fillStep_string_counter (i : Nat) (s : GenState) :
    (fillStep i s).2.string_counter =
      if i % 3 = 2 then (s.string_counter + 1) % EXPORT_STRINGS_LEN else s.string_counter := by
  have h : i % 3 = 0 ∨ i % 3 = 1 ∨ i % 3 = 2 := by omega
  rcases h with h | h | h <;>
    simp [fillStep, h, get_value_struct, get_m_value_struct, get_message_struct]

theorem fillStep_timeCalls (i : Nat) (s : GenState) :
    (fillStep i s).2.timeCalls =
      if i % 3 = 2 then s.timeCalls else s.timeCalls + 1 := by
  have h : i % 3 = 0 ∨ i % 3 = 1 ∨ i % 3 = 2 := by omega
  rcases h with h | h | h <;>
    simp [fillStep, h, get_value_struct, get_m_value_struct, get_message_struct]

theorem stateAt_clock (c : Nat → Int) (i : Nat) :
    (stateAt c i).clock = c := by
  induction i with
  | zero => rfl
  | succ i ih =>
    show (fillStep i (stateAt c i)).2.clock = c
    rw [fillStep_clock, ih]

theorem stateAt_val_counter (c : Nat → Int) (i : Nat) :
    (stateAt c i).val_counter = ((i + 2) / 3) % FLOAT_ARRAY_LEN := by
  induction i with
  | zero => rfl
  | succ i ih =>
    show (fillStep i (stateAt c i)).2.val_counter = ((i + 1 + 2) / 3) % FLOAT_ARRAY_LEN
    rw [fillStep_val_counter, ih]
    simp only [FLOAT_ARRAY_LEN]
    by_cases h : i % 3 = 0
    · simp only [h, if_true]; omega
    · simp only [h, if_false]; omega

theorem stateAt_string_counter (c : Nat → Int) (i : Nat) :
    (stateAt c i).string_counter = (i / 3) % EXPORT_STRINGS_LEN := by
  induction i with
  | zero => rfl
  | succ i ih =>
    show (fillStep i (stateAt c i)).2.string_counter = ((i + 1) / 3) % EXPORT_STRINGS_LEN
    rw [fillStep_string_counter, ih]
    simp only [EXPORT_STRINGS_LEN]
    by_cases h : i % 3 = 2
    · simp only [h, if_true]; omega
    · simp only [h, if_false]; omega

theorem stateAt_timeCalls (c : Nat → Int) (i : Nat) :
    (stateAt c i).timeCalls = (i + 2) / 3 + (i + 1) / 3 := by
  induction i with
  | zero => rfl
  | succ i ih =>
    show (fillStep i (stateAt c i)).2.timeCalls = (i + 1 + 2) / 3 + (i + 1 + 1) / 3
    rw [fillStep_timeCalls, ih]
    by_cases h : i % 3 = 2
    · simp only [h, if_true]; omega
    · simp only [h, if_false]; omega

/-! ## The record each loop index produces -/

theorem fillStep_scalar (i : Nat) (s : GenState) (h : i % 3 = 0) :
    (fillStep i s).1 =
      { type := VALUE
        payload := ExportPayload.val
          { type := VALUE
            val := float_array.getD s.val_counter 0
            timestamp := s.clock s.timeCalls } } := by
  simp [fillStep, h, get_value_struct]

theorem fillStep_vector (i : Nat) (s : GenState) (h : i % 3 = 1) :
    (fillStep i s).1 =
      { type := M_VALUE
        payload := ExportPayload.mvals
          { type := M_VALUE
            val := float_array
            timestamp := s.clock s.timeCalls } } := by
  simp [fillStep, h, get_m_value_struct]

theorem fillStep_message (i : Nat) (s : GenState) (h : i % 3 = 2) :
    (fillStep i s).1 =
      { type := MESSAGE
        payload := ExportPayload.messages
          { type := MESSAGE
            message := export_strings.getD s.string_counter (List.replicate 21 0) } } := by
  simp [fillStep, h, get_message_struct]

/-! ## Row facts about the string table -/

theorem export_strings_rows_ok : ∀ k, k < 7 →
    (export_strings.getD k (List.replicate 21 0)).length = 21 ∧
    (export_strings.getD k (List.replicate 21 0)).contains 0 = true ∧
    (((export_strings.getD k (List.replicate 21 0)).dropWhile fun b => b != 0).all
        fun b => b == 0) = true ∧
    ((export_strings.getD k (List.replicate 21 0)).takeWhile fun b => b != 0).length ≤ 20 := by
  decide

theorem export_strings_getD_length (k : Nat) :
    (export_strings.getD k (List.replicate 21 0)).length = 21 := by
  by_cases hk : k < 7
  · exact (export_strings_rows_ok k hk).1
  · rw [List.getD_eq_default]
    · simp
    · simp only [export_strings, List.length_cons, List.length_nil]
      omega

/-! ## Claim theorems: the generator -/

/-- **C1**: for every index `i` in a generation run of `N` records, the
discriminant of record `i` is `1` when `i % 3 = 0` (Scalar), `2` when
`i % 3 = 1` (Vector) and `3` when `i % 3 = 2` (Message). -/
theorem C1_discriminant (c : Nat → Int) (N i : Nat) (h : i < N) :
    ((records c N).get? i).map ExportData.type =
      some (if i % 3 = 0 then 1 else if i % 3 = 1 then 2 else 3) := by
  rw [records_get c N i h]
  have h3 : i % 3 = 0 ∨ i % 3 = 1 ∨ i % 3 = 2 := by omega
  rcases h3 with h3 | h3 | h3
  · rw [fillStep_scalar i _ h3]; simp [VALUE, h3]
  · rw [fillStep_vector i _ h3]; simp [M_VALUE, h3]
  · rw [fillStep_message i _ h3]; simp [MESSAGE, h3]

/-- **C3**: the float-table cursor advances exactly once per Scalar record
(`get_value_struct`), never for a Vector or Message record, and wraps
modulo 10, so the `k`-th Scalar record (at run index `3 * k`) carries
`float_array[k % 10]`. -/
theorem C3_float_cursor (c : Nat → Int) (s : GenState) (N k : Nat) (h : 3 * k < N) :
    (get_value_struct s).2.val_counter = (s.val_counter + 1) % FLOAT_ARRAY_LEN ∧
    (get_m_value_struct s).2.val_counter = s.val_counter ∧
    (get_message_struct s).2.val_counter = s.val_counter ∧
    ∃ ts : Int, (records c N).get? (3 * k) =
      some { type := VALUE
             payload := ExportPayload.val
               { type := VALUE
                 val := float_array.getD (k % FLOAT_ARRAY_LEN) 0
                 timestamp := ts } } := by
  refine ⟨rfl, rfl, rfl, ?_⟩
  have hidx : (3 * k + 2) / 3 % FLOAT_ARRAY_LEN = k % FLOAT_ARRAY_LEN := by
    simp only [FLOAT_ARRAY_LEN]; omega
  rw [records_get c N (3 * k) h, fillStep_scalar (3 * k) _ (by omega),
    stateAt_val_counter, hidx]
  exact ⟨_, rfl⟩

/-- **C4**: the string-table cursor advances exactly once per Message record
(`get_message_struct`), never for a Scalar or Vector record, and wraps
modulo 7, so the `k`-th Message record (at run index `3 * k + 2`) carries
`export_strings[k % 7]`. -/
theorem C4_string_cursor (c : Nat → Int) (s : GenState) (N k : Nat) (h : 3 * k + 2 < N) :
    (get_message_struct s).2.string_counter = (s.string_counter + 1) % EXPORT_STRINGS_LEN ∧
    (get_value_struct s).2.string_counter = s.string_counter ∧
    (get_m_value_struct s).2.string_counter = s.string_counter ∧
    (records c N).get? (3 * k + 2) =
      some { type := MESSAGE
             payload := ExportPayload.messages
               { type := MESSAGE
                 message := export_strings.getD (k % EXPORT_STRINGS_LEN)
                   (List.replicate 21 0) } } := by
  refine ⟨rfl, rfl, rfl, ?_⟩
  have hidx : (3 * k + 2) / 3 % EXPORT_STRINGS_LEN = k % EXPORT_STRINGS_LEN := by
    simp only [EXPORT_STRINGS_LEN]; omega
  rw [records_get c N (3 * k + 2) h, fillStep_message (3 * k + 2) _ (by omega),
    stateAt_string_counter, hidx]

/-- **C5**: every Vector record's payload is the full 10-element float table
in table order, whatever the float cursor's position: `get_m_value_struct`
copies `float_array` whole from any state, and every run record at a
Vector index holds exactly `float_array`. -/
theorem C5_vector_payload (c : Nat → Int) (s : GenState) (N i : Nat)
    (h : i < N) (h3 : i % 3 = 1) :
    (get_m_value_struct s).1.val = float_array ∧
    ∃ ts : Int, (records c N).get? i =
      some { type := M_VALUE
             payload := ExportPayload.mvals
               { type := M_VALUE, val := float_array, timestamp := ts } } := by
  refine ⟨rfl, ?_⟩
  rw [records_get c N i h, fillStep_vector i _ h3]
  exact ⟨_, rfl⟩

/-- **C9**: every Message record's 21-byte buffer holds a null terminator
within its 21 bytes (so at most 20 visible characters before it), and every
byte from the first zero byte onwards is zero — the full zero-padded
21-byte table row was copied in. -/
theorem C9_message_buffer (c : Nat → Int) (N i : Nat) (h : i < N) (h3 : i % 3 = 2) :
    ∃ m : MessageStruct,
      (records c N).get? i =
        some { type := MESSAGE, payload := ExportPayload.messages m } ∧
      m.message.length = 21 ∧
      m.message.contains 0 = true ∧
      ((m.message.dropWhile fun b => b != 0).all fun b => b == 0) = true ∧
      (m.message.takeWhile fun b => b != 0).length ≤ 20 := by
  rw [records_get c N i h, fillStep_message i _ h3, stateAt_string_counter]
  refine ⟨_, rfl, ?_⟩
  have hk : i / 3 % EXPORT_STRINGS_LEN < 7 := by
    simp only [EXPORT_STRINGS_LEN]; omega
  exact export_strings_rows_ok _ hk

/-- **C10**: for every record of a run, the outer discriminant equals the
inner `type` field stored at the start of the active union member, and that
common value is the variant's tag (1 Scalar, 2 Vector, 3 Message). -/
theorem C10_discriminants_agree (c : Nat → Int) (N i : Nat) (h : i < N) :
    ∃ r : ExportData, (records c N).get? i = some r ∧
      innerType r.payload = r.type ∧ r.type = variantTag r.payload := by
  rw [records_get c N i h]
  have h3 : i % 3 = 0 ∨ i % 3 = 1 ∨ i % 3 = 2 := by omega
  rcases h3 with h3 | h3 | h3
  · rw [fillStep_scalar i _ h3]; exact ⟨_, rfl, rfl, rfl⟩
  · rw [fillStep_vector i _ h3]; exact ⟨_, rfl, rfl, rfl⟩
  · rw [fillStep_message i _ h3]; exact ⟨_, rfl, rfl, rfl⟩

/-- **C7 (amended)**: Scalar and Vector records are stamped with the wall
clock at construction — each of `get_value_struct` and `get_m_value_struct`
samples `time` exactly once and stores the sampled value — while a Message
record's construction performs no clock sample at all (`MessageStruct` has
no timestamp field). In a run, the Scalar record at index `i` carries the
clock reading taken at its construction, as does the Vector record at
index `i`; the record at a Message index holds no timestamp. -/
theorem C7_timestamps (c : Nat → Int) (s : GenState) (N i : Nat) (h : i < N) :
    (get_value_struct s).1.timestamp = s.clock s.timeCalls ∧
    (get_m_value_struct s).1.timestamp = s.clock s.timeCalls ∧
    (get_value_struct s).2.timeCalls = s.timeCalls + 1 ∧
    (get_m_value_struct s).2.timeCalls = s.timeCalls + 1 ∧
    (get_message_struct s).2.timeCalls = s.timeCalls ∧
    (i % 3 = 0 → ∃ v : ValueStruct,
      (records c N).get? i = some { type := VALUE, payload := ExportPayload.val v } ∧
      v.timestamp = c ((stateAt c i).timeCalls)) ∧
    (i % 3 = 1 → ∃ v : MValueStruct,
      (records c N).get? i = some { type := M_VALUE, payload := ExportPayload.mvals v } ∧
      v.timestamp = c ((stateAt c i).timeCalls)) ∧
    (i % 3 = 2 → ∃ m : MessageStruct,
      (records c N).get? i =
        some { type := MESSAGE, payload := ExportPayload.messages m }) := by
  refine ⟨rfl, rfl, rfl, rfl, rfl, ?_, ?_, ?_⟩
  · intro h3
    rw [records_get c N i h, fillStep_scalar i _ h3, stateAt_clock]
    exact ⟨_, rfl, rfl⟩
  · intro h3
    rw [records_get c N i h, fillStep_vector i _ h3, stateAt_clock]
    exact ⟨_, rfl, rfl⟩
  · intro h3
    rw [records_get c N i h, fillStep_message i _ h3]
    exact ⟨_, rfl⟩

/-- **C7 counterexample**: building a Message record takes no wall-clock
sample — `get_message_struct` leaves the count of `time(NULL)` calls
untouched, and the record it builds is bit-identical under two clocks that
disagree — so a Message record is not stamped with the construction-time
clock; moreover a 3-record run (one record of each kind) samples the clock
only twice, not three times. -/
theorem C7_counterexample :
    (get_message_struct (initState fun _ => 0)).2.timeCalls =
      (initState fun _ => 0).timeCalls ∧
    (get_message_struct (initState fun _ => 0)).1 =
      (get_message_struct (initState fun _ => 7)).1 ∧
    (fun _ => (0 : Int)) 0 ≠ (fun _ => (7 : Int)) 0 ∧
    (stateAt (fun _ => 0) 3).timeCalls = 2 := by
  exact ⟨rfl, rfl, by decide, rfl⟩

/-! ## Sizes of the serialized stream -/

theorem fitArray_length (n : Nat) (l : List Cell) : (fitArray n l).length = n := by
  simp only [fitArray, List.length_append, List.length_take, List.length_replicate]
  omega

theorem serializeRecord_length (r : ExportData) : (serializeRecord r).length = 64 := by
  simp [serializeRecord, encInt, fitArray_length]

theorem export_records_length (data : List ExportData) :
    (export_records data).length = data.length * 64 := by
  induction data with
  | nil => rfl
  | cons r rs ih =>
    simp only [export_records, List.map_cons, List.flatten_cons, List.length_append,
      serializeRecord_length, List.length_cons] at ih ⊢
    omega

/-- **C2**: a run of `N` records serializes to exactly
`N * sizeof(ExportData)` bytes; for `N = 0` the stream is empty. -/
theorem C2_output_size (c : Nat → Int) (N : Nat) :
    (export_records (records c N)).length = N * sizeofExportData ∧
    export_records (records c 0) = [] := by
  refine ⟨?_, rfl⟩
  rw [export_records_length, records_length]
  rfl

/-! ## Reading a block back -/

theorem get_at_prefix (pre suf : List Cell) (x : Cell) :
    (pre ++ x :: suf)[pre.length]? = some x := by
  rw [List.getElem?_append_right (Nat.le_refl _)]
  simp

theorem readChars_encoded (cs : List Nat) : ∀ (pre suf : List Cell),
    readChars (pre ++ cs.map Cell.charB ++ suf) pre.length cs.length = some cs := by
  induction cs with
  | nil => intro pre suf; rfl
  | cons b bs ih =>
    intro pre suf
    have hEq : pre ++ (b :: bs).map Cell.charB ++ suf =
        pre ++ Cell.charB b :: (bs.map Cell.charB ++ suf) := by
      simp
    have hA : readCharAt (pre ++ Cell.charB b :: (bs.map Cell.charB ++ suf))
        pre.length = some b := by
      rw [readCharAt, get_at_prefix]
    have hB : readChars (pre ++ Cell.charB b :: (bs.map Cell.charB ++ suf))
        (pre.length + 1) bs.length = some bs := by
      have hEq2 : pre ++ Cell.charB b :: (bs.map Cell.charB ++ suf) =
          (pre ++ [Cell.charB b]) ++ bs.map Cell.charB ++ suf := by
        simp
      rw [hEq2]
      have := ih (pre ++ [Cell.charB b]) suf
      simpa using this
    rw [hEq]
    show readChars _ _ (bs.length + 1) = _
    rw [readChars, hA, hB]

theorem readFloats_encoded (vs : List Rat) : ∀ (pre suf : List Cell),
    readFloats (pre ++ (vs.map encFloat).flatten ++ suf) pre.length vs.length = some vs := by
  induction vs with
  | nil => intro pre suf; rfl
  | cons v vs ih =>
    intro pre suf
    have henc : encFloat v =
        Cell.floatB v :: [Cell.floatB v, Cell.floatB v, Cell.floatB v] := rfl
    have hEq : pre ++ ((v :: vs).map encFloat).flatten ++ suf =
        pre ++ Cell.floatB v ::
          ([Cell.floatB v, Cell.floatB v, Cell.floatB v] ++
            ((vs.map encFloat).flatten ++ suf)) := by
      simp [henc]
    have hA : readFloatAt (pre ++ Cell.floatB v ::
        ([Cell.floatB v, Cell.floatB v, Cell.floatB v] ++
          ((vs.map encFloat).flatten ++ suf))) pre.length = some v := by
      rw [readFloatAt, get_at_prefix]
    have hB : readFloats (pre ++ Cell.floatB v ::
        ([Cell.floatB v, Cell.floatB v, Cell.floatB v] ++
          ((vs.map encFloat).flatten ++ suf))) (pre.length + 4) vs.length = some vs := by
      have hEq2 : pre ++ Cell.floatB v ::
          ([Cell.floatB v, Cell.floatB v, Cell.floatB v] ++
            ((vs.map encFloat).flatten ++ suf)) =
          (pre ++ encFloat v) ++ (vs.map encFloat).flatten ++ suf := by
        simp [henc]
      have hlen : (pre ++ encFloat v).length = pre.length + 4 := by
        simp [henc]
      rw [hEq2]
      have := ih (pre ++ encFloat v) suf
      rw [hlen] at this
      exact this
    rw [hEq]
    show readFloats _ _ (vs.length + 1) = _
    rw [readFloats, hA, hB]

theorem flatten_encFloat_length (l : List Rat) :
    ((l.map encFloat).flatten).length = 4 * l.length := by
  induction l with
  | nil => rfl
  | cons v vs ih =>
    simp only [List.map_cons, List.flatten_cons, List.length_append, ih,
      encFloat, List.length_replicate, List.length_cons]
    omega

theorem parseBlock_scalar (v : ValueStruct) :
    parseBlock (serializeRecord { type := VALUE, payload := ExportPayload.val v }) =
      some { type := VALUE, payload := ParsedPayload.scalar v.val } := rfl

theorem parseBlock_vector (v : MValueStruct) (hlen : v.val.length = 10) :
    parseBlock (serializeRecord { type := M_VALUE, payload := ExportPayload.mvals v }) =
      some { type := M_VALUE, payload := ParsedPayload.vector v.val } := by
  have hflat : ((v.val.map encFloat).flatten).length = 40 := by
    rw [flatten_encFloat_length, hlen]
  have hfit40 : fitArray 40 ((v.val.map encFloat).flatten) = (v.val.map encFloat).flatten := by
    rw [fitArray, List.take_of_length_le (le_of_eq hflat), hflat]
    simp
  have hinner : (encInt v.type ++ (v.val.map encFloat).flatten ++
      List.replicate 4 Cell.undef ++ encLong v.timestamp).length = 56 := by
    simp [encInt, encLong, hflat]
  have h56 : fitArray 56 (encInt v.type ++ (v.val.map encFloat).flatten ++
      List.replicate 4 Cell.undef ++ encLong v.timestamp) =
      encInt v.type ++ (v.val.map encFloat).flatten ++
      List.replicate 4 Cell.undef ++ encLong v.timestamp := by
    rw [fitArray, List.take_of_length_le (le_of_eq hinner), hinner]
    simp
  have hblock : serializeRecord { type := M_VALUE, payload := ExportPayload.mvals v } =
      (encInt M_VALUE ++ List.replicate 4 Cell.undef ++ encInt v.type) ++
        (v.val.map encFloat).flatten ++
        (List.replicate 4 Cell.undef ++ encLong v.timestamp) := by
    simp only [serializeRecord, payloadCells, serializeMValue, hfit40, h56]
    simp [List.append_assoc]
  rw [hblock]
  have ht : readIntAt ((encInt M_VALUE ++ List.replicate 4 Cell.undef ++ encInt v.type) ++
      (v.val.map encFloat).flatten ++
      (List.replicate 4 Cell.undef ++ encLong v.timestamp)) 0 = some M_VALUE := by
    rfl
  have hpre : (encInt M_VALUE ++ List.replicate 4 Cell.undef ++ encInt v.type).length = 12 := by
    simp [encInt]
  have hfl : readFloats ((encInt M_VALUE ++ List.replicate 4 Cell.undef ++ encInt v.type) ++
      (v.val.map encFloat).flatten ++
      (List.replicate 4 Cell.undef ++ encLong v.timestamp)) 12 10 = some v.val := by
    have := readFloats_encoded v.val
      (encInt M_VALUE ++ List.replicate 4 Cell.undef ++ encInt v.type)
      (List.replicate 4 Cell.undef ++ encLong v.timestamp)
    rw [hpre, hlen] at this
    exact this
  rw [parseBlock, ht, hfl]
  simp [VALUE, M_VALUE, MESSAGE]

theorem parseBlock_message (m : MessageStruct) (hlen : m.message.length = 21) :
    parseBlock (serializeRecord { type := MESSAGE, payload := ExportPayload.messages m }) =
      some { type := MESSAGE, payload := ParsedPayload.message m.message } := by
  have hmap : (m.message.map Cell.charB).length = 21 := by
    rw [List.length_map, hlen]
  have hfit21 : fitArray 21 (m.message.map Cell.charB) = m.message.map Cell.charB := by
    rw [fitArray, List.take_of_length_le (le_of_eq hmap), hmap]
    simp
  have hinner : (encInt m.type ++ m.message.map Cell.charB).length = 25 := by
    simp [encInt, hmap]
  have h56 : fitArray 56 (encInt m.type ++ m.message.map Cell.charB) =
      encInt m.type ++ m.message.map Cell.charB ++ List.replicate 31 Cell.undef := by
    rw [fitArray, List.take_of_length_le (by omega), hinner]
  have hblock : serializeRecord { type := MESSAGE, payload := ExportPayload.messages m } =
      (encInt MESSAGE ++ List.replicate 4 Cell.undef ++ encInt m.type) ++
        m.message.map Cell.charB ++ List.replicate 31 Cell.undef := by
    simp only [serializeRecord, payloadCells, serializeMessage, hfit21, h56]
    simp [List.append_assoc]
  rw [hblock]
  have ht : readIntAt ((encInt MESSAGE ++ List.replicate 4 Cell.undef ++ encInt m.type) ++
      m.message.map Cell.charB ++ List.replicate 31 Cell.undef) 0 = some MESSAGE := by
    rfl
  have hpre : (encInt MESSAGE ++ List.replicate 4 Cell.undef ++ encInt m.type).length = 12 := by
    simp [encInt]
  have hch : readChars ((encInt MESSAGE ++ List.replicate 4 Cell.undef ++ encInt m.type) ++
      m.message.map Cell.charB ++ List.replicate 31 Cell.undef) 12 21 = some m.message := by
    have := readChars_encoded m.message
      (encInt MESSAGE ++ List.replicate 4 Cell.undef ++ encInt m.type)
      (List.replicate 31 Cell.undef)
    rw [hpre, hlen] at this
    exact this
  rw [parseBlock, ht, hch]
  simp [VALUE, M_VALUE, MESSAGE]

theorem parseBlock_serializeRecord (r : ExportData) (h : wellFormed r) :
    parseBlock (serializeRecord r) = some (viewRecord r) := by
  obtain ⟨t, p⟩ := r
  cases p with
  | val v =>
    simp only [wellFormed] at h
    subst h
    exact parseBlock_scalar v
  | mvals v =>
    simp only [wellFormed] at h
    obtain ⟨ht, hlen⟩ := h
    subst ht
    exact parseBlock_vector v hlen
  | messages m =>
    simp only [wellFormed] at h
    obtain ⟨ht, hlen⟩ := h
    subst ht
    exact parseBlock_message m hlen

theorem fillStep_wellFormed (i : Nat) (s : GenState) : wellFormed (fillStep i s).1 := by
  have h3 : i % 3 = 0 ∨ i % 3 = 1 ∨ i % 3 = 2 := by omega
  rcases h3 with h3 | h3 | h3
  · rw [fillStep_scalar i s h3]; exact rfl
  · rw [fillStep_vector i s h3]; exact ⟨rfl, rfl⟩
  · rw [fillStep_message i s h3]; exact ⟨rfl, export_strings_getD_length _⟩

theorem fillFrom_wellFormed (n : Nat) : ∀ (i : Nat) (s : GenState) (r : ExportData),
    r ∈ (fillFrom i n s).1 → wellFormed r := by
  induction n with
  | zero => intro i s r hr; simp [fillFrom] at hr
  | succ m ih =>
    intro i s r hr
    simp only [fillFrom, List.mem_cons] at hr
    rcases hr with rfl | hr
    · exact fillStep_wellFormed i s
    · exact ih (i + 1) _ r hr

theorem deserializeBlocks_export (rs : List ExportData) (h : ∀ r ∈ rs, wellFormed r) :
    deserializeBlocks rs.length (export_records rs) = some (rs.map viewRecord) := by
  induction rs with
  | nil => rfl
  | cons r rest ih =>
    have hr : wellFormed r := h r (List.mem_cons_self r rest)
    have hrest : ∀ x ∈ rest, wellFormed x := fun x hx => h x (List.mem_cons_of_mem _ hx)
    have hsplit : export_records (r :: rest) = serializeRecord r ++ export_records rest := by
      simp [export_records]
    have htake : (serializeRecord r ++ export_records rest).take 64 = serializeRecord r := by
      rw [show (64 : Nat) = (serializeRecord r).length from (serializeRecord_length r).symm]
      exact List.take_left _ _
    have hdrop : (serializeRecord r ++ export_records rest).drop 64 = export_records rest := by
      rw [show (64 : Nat) = (serializeRecord r).length from (serializeRecord_length r).symm]
      exact List.drop_left _ _
    simp only [List.length_cons, hsplit, List.map_cons]
    rw [deserializeBlocks, htake, hdrop, parseBlock_serializeRecord r hr, ih hrest]

/-- **C6**: round-trip — for every `N ≥ 0`, reading the produced byte
stream back with the documented fixed-size block layout reconstructs the
record count and, for every record, its discriminant and its payload values,
identical to the generator's output (timestamps excluded from the
reconstruction). -/
theorem C6_roundtrip (c : Nat → Int) (N : Nat) :
    deserialize (export_records (records c N)) = some ((records c N).map viewRecord) ∧
    ((records c N).map viewRecord).length = N := by
  constructor
  · have hlen : (export_records (records c N)).length = N * 64 := by
      rw [export_records_length, records_length]
    rw [deserialize, hlen, if_pos (by omega)]
    have hdiv : N * 64 / 64 = N := by omega
    rw [hdiv]
    have := deserializeBlocks_export (records c N)
      (fun r hr => fillFrom_wellFormed N 0 (initState c) r hr)
    rw [records_length] at this
    exact this
  · simp [records_length]

/-! ## Concrete instantiations of the claims with hypotheses -/

theorem C1_discriminant_witness :
    4 < 5 ∧
    ((records (fun _ => 0) 5).get? 4).map ExportData.type =
      some (if 4 % 3 = 0 then 1 else if 4 % 3 = 1 then 2 else 3) :=
  ⟨by decide, C1_discriminant (fun _ => 0) 5 4 (by decide)⟩

theorem C3_float_cursor_witness :
    3 * 11 < 100 ∧
    ((get_value_struct (initState fun _ => 0)).2.val_counter =
        ((initState fun _ => 0).val_counter + 1) % FLOAT_ARRAY_LEN ∧
      (get_m_value_struct (initState fun _ => 0)).2.val_counter =
        (initState fun _ => 0).val_counter ∧
      (get_message_struct (initState fun _ => 0)).2.val_counter =
        (initState fun _ => 0).val_counter ∧
      ∃ ts : Int, (records (fun _ => 0) 100).get? (3 * 11) =
        some { type := VALUE
               payload := ExportPayload.val
                 { type := VALUE
                   val := float_array.getD (11 % FLOAT_ARRAY_LEN) 0
                   timestamp := ts } }) :=
  ⟨by decide, C3_float_cursor (fun _ => 0) (initState fun _ => 0) 100 11 (by decide)⟩

theorem C4_string_cursor_witness :
    3 * 9 + 2 < 100 ∧
    ((get_message_struct (initState fun _ => 0)).2.string_counter =
        ((initState fun _ => 0).string_counter + 1) % EXPORT_STRINGS_LEN ∧
      (get_value_struct (initState fun _ => 0)).2.string_counter =
        (initState fun _ => 0).string_counter ∧
      (get_m_value_struct (initState fun _ => 0)).2.string_counter =
        (initState fun _ => 0).string_counter ∧
      (records (fun _ => 0) 100).get? (3 * 9 + 2) =
        some { type := MESSAGE
               payload := ExportPayload.messages
                 { type := MESSAGE
                   message := export_strings.getD (9 % EXPORT_STRINGS_LEN)
                     (List.replicate 21 0) } }) :=
  ⟨by decide, C4_string_cursor (fun _ => 0) (initState fun _ => 0) 100 9 (by decide)⟩

theorem C5_vector_payload_witness :
    (4 < 5 ∧ 4 % 3 = 1) ∧
    ((get_m_value_struct (initState fun _ => 0)).1.val = float_array ∧
      ∃ ts : Int, (records (fun _ => 0) 5).get? 4 =
        some { type := M_VALUE
               payload := ExportPayload.mvals
                 { type := M_VALUE, val := float_array, timestamp := ts } }) :=
  ⟨⟨by decide, by decide⟩,
   C5_vector_payload (fun _ => 0) (initState fun _ => 0) 5 4 (by decide) (by decide)⟩

theorem C7_timestamps_witness :
    2 < 3 ∧
    ((get_value_struct (initState fun _ => 0)).1.timestamp =
        (initState fun _ => 0).clock (initState fun _ => 0).timeCalls ∧
      (get_m_value_struct (initState fun _ => 0)).1.timestamp =
        (initState fun _ => 0).clock (initState fun _ => 0).timeCalls ∧
      (get_value_struct (initState fun _ => 0)).2.timeCalls =
        (initState fun _ => 0).timeCalls + 1 ∧
      (get_m_value_struct (initState fun _ => 0)).2.timeCalls =
        (initState fun _ => 0).timeCalls + 1 ∧
      (get_message_struct (initState fun _ => 0)).2.timeCalls =
        (initState fun _ => 0).timeCalls ∧
      (2 % 3 = 0 → ∃ v : ValueStruct,
        (records (fun _ => 0) 3).get? 2 =
          some { type := VALUE, payload := ExportPayload.val v } ∧
        v.timestamp = (fun _ => 0) ((stateAt (fun _ => 0) 2).timeCalls)) ∧
      (2 % 3 = 1 → ∃ v : MValueStruct,
        (records (fun _ => 0) 3).get? 2 =
          some { type := M_VALUE, payload := ExportPayload.mvals v } ∧
        v.timestamp = (fun _ => 0) ((stateAt (fun _ => 0) 2).timeCalls)) ∧
      (2 % 3 = 2 → ∃ m : MessageStruct,
        (records (fun _ => 0) 3).get? 2 =
          some { type := MESSAGE, payload := ExportPayload.messages m })) :=
  ⟨by decide, C7_timestamps (fun _ => 0) (initState fun _ => 0) 3 2 (by decide)⟩

theorem C9_message_buffer_witness :
    (2 < 3 ∧ 2 % 3 = 2) ∧
    (∃ m : MessageStruct,
      (records (fun _ => 0) 3).get? 2 =
        some { type := MESSAGE, payload := ExportPayload.messages m } ∧
      m.message.length = 21 ∧
      m.message.contains 0 = true ∧
      ((m.message.dropWhile fun b => b != 0).all fun b => b == 0) = true ∧
      (m.message.takeWhile fun b => b != 0).length ≤ 20) :=
  ⟨⟨by decide, by decide⟩, C9_message_buffer (fun _ => 0) 3 2 (by decide) (by decide)⟩

theorem C10_discriminants_agree_witness :
    1 < 2 ∧
    (∃ r : ExportData, (records (fun _ => 0) 2).get? 1 = some r ∧
      innerType r.payload = r.type ∧ r.type = variantTag r.payload) :=
  ⟨by decide, C10_discriminants_agree (fun _ => 0) 2 1 (by decide)⟩
